import Mathlib

/-!
Verification of the campaign synchronization pipeline
(`campaign-tracker-v2.py` together with `config_campaign.py`).

The Python functions relevant to the claims are shallowly embedded as pure
Lean functions.  Machine-facing details are modelled as follows:

* cells of the tabular (sheets/CSV) world are `String`s, rows are
  `List String`, a table is a `List (List String)` (header row first);
* Python's `lp in s` substring test is `List.isInfixOf` on the character
  lists;
* Python's `str.strip` / `str.isdigit` are modelled for the ASCII fragment
  the pipeline works in;
* `int(float(s))` (parse then truncate toward zero) is modelled by
  `pyFloatIntTrunc`, an exact-arithmetic model of Python `float()` on plain
  decimal strings (optional surrounding whitespace, optional sign, digits
  with at most one dot and at least one digit); `none` models a raised
  `ValueError`;
* file-system state (the CSV backups) is a map `String → Option contents`;
  the local counter ledger is a `Counters` structure;
* the remote append/verify attempts of the Write-Verify-Retry pipeline are
  driven by an `AttemptOutcome` oracle giving each attempt's result.
-/

/-- Python `str.strip` default whitespace predicate (ASCII fragment). -/
def pyIsSpace (c : Char) : Bool :=
  c = ' ' || c = '\t' || c = '\n' || c = '\r' || c = '\x0b' || c = '\x0c'

/-- Python `s.strip()` on the character list. -/
def pyStripList (l : List Char) : List Char :=
  ((l.dropWhile pyIsSpace).reverse.dropWhile pyIsSpace).reverse

/-- Python `s.strip()`. -/
def pyStrip (s : String) : String :=
  ⟨pyStripList s.data⟩

/-- Python `needle in hay` substring test on strings. -/
def pySub (needle hay : String) : Bool :=
  decide (needle.data <:+: hay.data)

/-- Numeric value of a (possibly empty) list of decimal digits. -/
def digitsToNat (l : List Char) : Nat :=
  l.foldl (fun n c => n * 10 + (c.toNat - '0'.toNat)) 0

/-- Sign of a Python float literal body (after whitespace stripping). -/
def pyFloatSign (t : List Char) : Int :=
  if t.head? = some '-' then -1 else 1

/-- Unsigned part of a Python float literal body. -/
def pyFloatBody (t : List Char) : List Char :=
  if t.head? = some '-' || t.head? = some '+' then t.tail else t

/-- Model of Python `int(float(s))`: parse `s` as a decimal float and
truncate toward zero.  `none` models a raised `ValueError`.  Covers the
plain decimal fragment (optional surrounding whitespace, one optional
sign, digit/dot characters with at least one digit and at most one dot);
exponents, underscores, `inf`/`nan` and float rounding beyond 2^53 are
outside the fragment this pipeline exercises. -/
def pyFloatIntTrunc (s : String) : Option Int :=
  if (pyFloatBody (pyStripList s.data)).all (fun c => c.isDigit || c = '.')
      && (pyFloatBody (pyStripList s.data)).any Char.isDigit
      && decide ((pyFloatBody (pyStripList s.data)).count '.' ≤ 1) then
    some (pyFloatSign (pyStripList s.data) *
      (digitsToNat ((pyFloatBody (pyStripList s.data)).takeWhile Char.isDigit) : Int))
  else
    none

/-! ## Registration-type classifier (`determine_reg_type`, lines 336-378) -/

/-- Embedding of `determine_reg_type(first_page, last_page,
landing_pages_list)`.  `none` models a Python `None` input (coerced to
`""`).  The two match flags are computed exactly as the Python loops with
`break` do, and the 4-branch `if`/`elif` chain is reproduced verbatim.
The Python `except` branch returning `"Error"` is unreachable for string
inputs, so the pure embedding never produces it. -/
def determine_reg_type (first_page last_page : Option String)
    (landing_pages_list : List String) : String :=
  let first_page_str := first_page.getD ""
  let last_page_str := last_page.getD ""
  let first_match := landing_pages_list.any (fun lp => pySub lp first_page_str)
  let last_match := landing_pages_list.any (fun lp => pySub lp last_page_str)
  if first_page_str == last_page_str && first_match then "Direct"
  else if first_match && !last_match then "Indirect"
  else if last_match then "Direct"
  else "Other"

/-- The classifier rule in the spec's words: `first_match` holds iff some
configured landing-page identifier is a substring of `first_page`
(`last_match` analogously), and the result follows the spec's 4-branch
rule.  Stated with propositional substring matching, independently of the
source embedding. -/
def regTypeSpec (first_page last_page : Option String)
    (landing_pages_list : List String) : String :=
  if (first_page.getD "" = last_page.getD "" ∧
      ∃ x ∈ landing_pages_list, x.data <:+: (first_page.getD "").data) then "Direct"
  else if ((∃ x ∈ landing_pages_list, x.data <:+: (first_page.getD "").data) ∧
      ¬ ∃ x ∈ landing_pages_list, x.data <:+: (last_page.getD "").data) then "Indirect"
  else if (∃ x ∈ landing_pages_list, x.data <:+: (last_page.getD "").data) then "Direct"
  else "Other"

theorem pySub_iff (needle hay : String) :
    pySub needle hay = true ↔ needle.data <:+: hay.data := by
  simp [pySub]

theorem anyMatch_iff (s : String) (lps : List String) :
    (lps.any (fun lp => pySub lp s) = true) ↔ ∃ lp ∈ lps, lp.data <:+: s.data := by
  rw [List.any_eq_true]
  exact exists_congr fun lp => and_congr_right fun _ => pySub_iff lp s

/-- Claim C1: for every triple of (optional) string inputs and identifier
list, `determine_reg_type` returns exactly one of
{Direct, Indirect, Other, Error}, and follows the 4-branch rule: Direct
when `first_page = last_page` and some identifier is a substring of
`first_page`; else Indirect when an identifier is a substring of
`first_page` but none of `last_page`; else Direct when an identifier is a
substring of `last_page`; else Other (in particular an exact first/last
match with no identifier hit yields Other, not Direct). -/
theorem determine_reg_type_total_and_spec (fp lp : Option String)
    (lps : List String) :
    (determine_reg_type fp lp lps = "Direct" ∨
     determine_reg_type fp lp lps = "Indirect" ∨
     determine_reg_type fp lp lps = "Other" ∨
     determine_reg_type fp lp lps = "Error") ∧
    determine_reg_type fp lp lps = regTypeSpec fp lp lps ∧
    ((fp.getD "" = lp.getD "" ∧ ¬ ∃ x ∈ lps, x.data <:+: (fp.getD "").data) →
      determine_reg_type fp lp lps = "Other") := by
  have hspec : determine_reg_type fp lp lps = regTypeSpec fp lp lps := by
    unfold determine_reg_type regTypeSpec
    by_cases hf : ∃ x ∈ lps, x.data <:+: (fp.getD "").data <;>
      by_cases hl : ∃ x ∈ lps, x.data <:+: (lp.getD "").data <;>
        by_cases he : fp.getD "" = lp.getD "" <;>
          simp [(anyMatch_iff _ lps).symm, hf, hl, he] at * <;>
            simp_all [anyMatch_iff]
  refine ⟨?_, hspec, ?_⟩
  · rw [hspec]
    unfold regTypeSpec
    split
    · exact Or.inl rfl
    · split
      · exact Or.inr (Or.inl rfl)
      · split
        · exact Or.inl rfl
        · exact Or.inr (Or.inr (Or.inl rfl))
  · rintro ⟨he, hnf⟩
    have hnl : ¬ ∃ x ∈ lps, x.data <:+: (lp.getD "").data := by
      rw [← he]; exact hnf
    rw [hspec]
    simp [regTypeSpec, hnf, hnl]

/-- Claim C1 witness (instantiating the spec's own examples). -/
theorem determine_reg_type_total_and_spec_witness :
    ((Option.some "lp/x").getD "" = (Option.some "lp/x").getD "" ∧
      ¬ ∃ x ∈ (["zzz"] : List String), x.data <:+: (("lp/x"):String).data) ∧
    determine_reg_type (some "lp/x") (some "lp/x") ["zzz"] = "Other" :=
  ⟨⟨rfl, by decide⟩,
   (determine_reg_type_total_and_spec (some "lp/x") (some "lp/x") ["zzz"]).2.2
     ⟨rfl, by decide⟩⟩

theorem string_eq_of_data_eq {a b : String} (h : a.data = b.data) : a = b := by
  cases a; cases b; exact congrArg String.mk h

theorem pySub_false_of_case_variant {x s : String}
    (hlow : x.data.map Char.toLower = s.data.map Char.toLower) (hne : x ≠ s) :
    pySub x s = false := by
  by_contra hc
  have hx : pySub x s = true := by
    cases h : pySub x s with
    | false => exact absurd h hc
    | true => rfl
  have hinf : x.data <:+: s.data := (pySub_iff x s).mp hx
  have hlen : x.data.length = s.data.length := by
    have := congrArg List.length hlow
    simpa using this
  exact hne (string_eq_of_data_eq (hinf.eq_of_length hlen))

/-- Claim C10: the classifier matches landing-page identifiers
case-sensitively — whenever `first_page` and `last_page` each differ from
every configured identifier only in letter case (same letters up to
`Char.toLower`, but not equal), both match flags are false and the
classification is Other. -/
theorem determine_reg_type_case_sensitive (f l : String) (lps : List String)
    (hf : ∀ x ∈ lps, x.data.map Char.toLower = f.data.map Char.toLower ∧ x ≠ f)
    (hl : ∀ x ∈ lps, x.data.map Char.toLower = l.data.map Char.toLower ∧ x ≠ l) :
    (lps.any (fun x => pySub x f)) = false ∧
    (lps.any (fun x => pySub x l)) = false ∧
    determine_reg_type (some f) (some l) lps = "Other" := by
  have hfm : (lps.any (fun x => pySub x f)) = false := by
    rw [List.any_eq_false]
    intro x hx
    simp [pySub_false_of_case_variant (hf x hx).1 (hf x hx).2]
  have hlm : (lps.any (fun x => pySub x l)) = false := by
    rw [List.any_eq_false]
    intro x hx
    simp [pySub_false_of_case_variant (hl x hx).1 (hl x hx).2]
  refine ⟨hfm, hlm, ?_⟩
  unfold determine_reg_type
  simp [hfm, hlm]

/-- Claim C10 witness: pages that are case variants of the sole configured
identifier are classified Other. -/
theorem determine_reg_type_case_sensitive_witness :
    determine_reg_type (some "LP/x") (some "lP/X") ["lp/x"] = "Other" :=
  (determine_reg_type_case_sensitive "LP/x" "lP/X" ["lp/x"]
    (by decide) (by decide)).2.2

/-! ## Key Resolver (`get_existing_sheet_ids`, lines 381-427) -/

/-- Python `s.replace('.', '')` on the character list. -/
def removeDots (l : List Char) : List Char :=
  l.filter (fun c => c ≠ '.')

/-- Python `s.isdigit()` for the ASCII fragment: non-empty and all
decimal digits. -/
def pyIsDigitList (l : List Char) : Bool :=
  !l.isEmpty && l.all Char.isDigit

/-- The per-cell step of `get_existing_sheet_ids`: the Python guard
`if row and row[0]`, the gate
`str(row[0]).strip().replace('.', '').isdigit()`, and on success
`int(float(row[0]))`; any failing gate or parse is logged and skipped
(`none`). -/
def sheetCellId (cell : String) : Option Int :=
  if cell ≠ "" then
    if pyIsDigitList (removeDots (pyStripList cell.data)) then
      pyFloatIntTrunc cell
    else none
  else none

/-- One row of the resolver's accumulation loop. -/
def idStep (s : Finset Int) (row : List String) : Finset Int :=
  match row.head? with
  | none => s
  | some c =>
    match sheetCellId c with
    | some n => insert n s
    | none => s

/-- Embedding of the pure part of `get_existing_sheet_ids`: the first row
is always popped as a header, then every subsequent row's first cell is
parsed by `sheetCellId` and added to the identifier set when numeric. -/
def get_existing_sheet_ids (values : List (List String)) : Finset Int :=
  values.tail.foldl idStep ∅

/-- The spec's words for one cell: if the cell is non-empty and represents
a numeric value (integer or decimal-looking string: only digit/dot
characters after stripping, at least one digit, at most one dot), parse it
via float-then-truncate-to-int; otherwise skip. -/
def cellNumericValue (cell : String) : Option Int :=
  if (pyStripList cell.data).all (fun c => c.isDigit || c = '.')
      && (pyStripList cell.data).any Char.isDigit
      && decide ((pyStripList cell.data).count '.' ≤ 1) then
    some ((digitsToNat ((pyStripList cell.data).takeWhile Char.isDigit) : Nat) : Int)
  else none

theorem removeDots_all_iff (t : List Char) :
    ((removeDots t).all Char.isDigit = true) ↔
      (∀ c ∈ t, c.isDigit = true ∨ c = '.') := by
  simp only [removeDots, List.all_eq_true, List.mem_filter]
  constructor
  · intro h c hc
    by_cases hd : c = '.'
    · exact Or.inr hd
    · exact Or.inl (h c ⟨hc, by simpa using hd⟩)
  · rintro h c ⟨hc, hnd⟩
    rcases h c hc with hd | hd
    · exact hd
    · exact absurd hd (by simpa using hnd)

theorem removeDots_eq_nil_iff (t : List Char) :
    removeDots t = [] ↔ ∀ c ∈ t, c = '.' := by
  simp [removeDots, List.filter_eq_nil_iff]

theorem gate_iff (t : List Char) :
    pyIsDigitList (removeDots t) = true ↔
      ((∀ c ∈ t, c.isDigit = true ∨ c = '.') ∧ t.any Char.isDigit = true) := by
  have hne : (!(removeDots t).isEmpty) = true ↔ removeDots t ≠ [] := by
    cases h : removeDots t <;> simp [h]
  rw [pyIsDigitList, Bool.and_eq_true, hne, removeDots_all_iff]
  constructor
  · rintro ⟨hnil, hall⟩
    refine ⟨hall, ?_⟩
    rcases List.exists_mem_of_ne_nil _ hnil with ⟨c, hc⟩
    have hct : c ∈ t := (List.mem_filter.mp hc).1
    have hcd : c ≠ '.' := by simpa using (List.mem_filter.mp hc).2
    rcases hall c hct with h | h
    · exact List.any_eq_true.mpr ⟨c, hct, h⟩
    · exact absurd h hcd
  · rintro ⟨hall, hany⟩
    refine ⟨?_, hall⟩
    rcases List.any_eq_true.mp hany with ⟨c, hct, hcd⟩
    intro hnil
    have : c = '.' := (removeDots_eq_nil_iff t).mp hnil c hct
    subst this
    exact absurd hcd (by decide)

theorem data_eq_nil_iff (s : String) : s.data = [] ↔ s = "" := by
  constructor
  · intro h; exact string_eq_of_data_eq (by simpa using h)
  · rintro rfl; rfl

theorem sheetCellId_eq_cellNumericValue (cell : String) :
    sheetCellId cell = cellNumericValue cell := by
  by_cases hc : cell = ""
  · subst hc; rfl
  · rw [sheetCellId, if_pos hc]
    by_cases hg : pyIsDigitList (removeDots (pyStripList cell.data)) = true
    · rw [if_pos hg]
      obtain ⟨hall, hany⟩ := (gate_iff (pyStripList cell.data)).mp hg
      have hbody : pyFloatBody (pyStripList cell.data) = pyStripList cell.data := by
        rw [pyFloatBody]
        cases ht : pyStripList cell.data with
        | nil => simp [ht]
        | cons c0 rest =>
          have hc0 : c0.isDigit = true ∨ c0 = '.' := hall c0 (ht ▸ List.mem_cons_self c0 rest)
          have h1 : c0 ≠ '-' := by rintro rfl; revert hc0; decide
          have h2 : c0 ≠ '+' := by rintro rfl; revert hc0; decide
          simp [h1, h2]
      have hsign : pyFloatSign (pyStripList cell.data) = 1 := by
        rw [pyFloatSign]
        cases ht : pyStripList cell.data with
        | nil => simp
        | cons c0 rest =>
          have hc0 : c0.isDigit = true ∨ c0 = '.' := hall c0 (ht ▸ List.mem_cons_self c0 rest)
          have h1 : c0 ≠ '-' := by rintro rfl; revert hc0; decide
          simp [h1]
      rw [pyFloatIntTrunc, cellNumericValue, hbody, hsign]
      simp
    · rw [if_neg hg, cellNumericValue]
      rw [if_neg]
      intro hcond
      rw [Bool.and_eq_true, Bool.and_eq_true] at hcond
      exact hg ((gate_iff (pyStripList cell.data)).mpr
        ⟨(removeDots_all_iff (pyStripList cell.data)).mp
          ((removeDots_all_iff (pyStripList cell.data)).mpr
            (by simpa [List.all_eq_true] using hcond.1.1)),
          hcond.1.2⟩)

theorem cellNumericValue_empty : cellNumericValue "" = none := rfl

theorem mem_foldl_idStep (rows : List (List String)) (s : Finset Int) (n : Int) :
    n ∈ rows.foldl idStep s ↔
      n ∈ s ∨ ∃ row ∈ rows, ∃ c, row.head? = some c ∧ sheetCellId c = some n := by
  induction rows generalizing s with
  | nil => simp
  | cons r rs ih =>
    rw [List.foldl_cons, ih]
    have hstep : n ∈ idStep s r ↔
        n ∈ s ∨ ∃ c, r.head? = some c ∧ sheetCellId c = some n := by
      rw [idStep]
      cases hr : r.head? with
      | none => simp
      | some c =>
        cases hsc : sheetCellId c with
        | none => simp [hsc]
        | some m =>
          simp only [hsc, Finset.mem_insert]
          constructor
          · rintro (rfl | h)
            · exact Or.inr ⟨c, rfl, hsc⟩
            · exact Or.inl h
          · rintro (h | ⟨c', hc', hm⟩)
            · exact Or.inr h
            · rw [Option.some_inj] at hc'
              subst hc'
              rw [hsc] at hm
              exact Or.inl (Option.some_inj.mp hm).symm
    rw [hstep]
    simp only [List.mem_cons]
    constructor
    · rintro ((h | ⟨c, hc, hn⟩) | ⟨row, hrow, hx⟩)
      · exact Or.inl h
      · exact Or.inr ⟨r, Or.inl rfl, c, hc, hn⟩
      · exact Or.inr ⟨row, Or.inr hrow, hx⟩
    · rintro (h | ⟨row, (rfl | hrow), hx⟩)
      · exact Or.inl (Or.inl h)
      · exact Or.inl (Or.inr hx)
      · exact Or.inr ⟨row, hrow, hx⟩

/-- Claim C6: the key resolver always skips the first row as a header (a
table with zero or one row yields the empty set), and an identifier `n`
is collected exactly when some subsequent row's first cell is non-empty,
represents a numeric value, and parses to `n` via float-then-truncate;
non-numeric cells are skipped without failing (the resolver is a total
function). -/
theorem get_existing_sheet_ids_spec (values : List (List String)) :
    (values.length ≤ 1 → get_existing_sheet_ids values = ∅) ∧
    (∀ n : Int, n ∈ get_existing_sheet_ids values ↔
      ∃ row ∈ values.tail, ∃ c, row.head? = some c ∧ c ≠ "" ∧
        cellNumericValue c = some n) := by
  constructor
  · intro hlen
    have : values.tail = [] := by
      cases values with
      | nil => rfl
      | cons v vs => cases vs with
        | nil => rfl
        | cons w ws => simp at hlen
    rw [get_existing_sheet_ids, this]
    rfl
  · intro n
    rw [get_existing_sheet_ids, mem_foldl_idStep]
    simp only [Finset.not_mem_empty, false_or]
    refine exists_congr fun row => and_congr_right fun _ => exists_congr fun c => ?_
    rw [sheetCellId_eq_cellNumericValue]
    constructor
    · rintro ⟨hc, hv⟩
      refine ⟨hc, ?_, hv⟩
      rintro rfl
      rw [cellNumericValue_empty] at hv
      cases hv
    · rintro ⟨hc, _, hv⟩
      exact ⟨hc, hv⟩

/-- Claim C6 witness: a one-row table resolves to the empty set, and a
concrete numeric cell below the header is collected via truncation. -/
theorem get_existing_sheet_ids_spec_witness :
    get_existing_sheet_ids [["Ref"]] = ∅ ∧
    ((3 : Int) ∈ get_existing_sheet_ids [["Ref"], ["3.7"], ["abc"]] ↔
      ∃ row ∈ [["3.7"], ["abc"]], ∃ c, row.head? = some c ∧ c ≠ "" ∧
        cellNumericValue c = some 3) :=
  ⟨(get_existing_sheet_ids_spec [["Ref"]]).1 (by decide),
   (get_existing_sheet_ids_spec [["Ref"], ["3.7"], ["abc"]]).2 3⟩

/-! ## Write verification (`verify_write_success`, lines 143-191) -/

/-- The gate of line 166 on a re-read cell:
`row and row[0] and str(row[0]).replace('.', '').isdigit()` (note: no
`strip` here, unlike the Key Resolver). -/
def currentCellGate (c : String) : Bool :=
  c ≠ "" && pyIsDigitList (removeDots c.data)

/-- Identifier set extracted from the re-read column (lines 163-167).
`none` models a `ValueError` raised by `int(float(...))` inside the loop;
it is caught only by the outer handler of `verify_write_success`, which
then returns failure. -/
def currentIdsOfValues (values : List (List String)) : Option (Finset Int) :=
  if 1 < values.length then
    values.tail.foldlM
      (fun s row =>
        match row.head? with
        | none => some s
        | some c =>
          if currentCellGate c then
            match pyFloatIntTrunc c with
            | some n => some (insert n s)
            | none => none
          else some s)
      (∅ : Finset Int)
  else some ∅

/-- Embedding of `verify_write_success`: empty batches verify trivially;
otherwise every written row whose first cell parses with `int(float(...))`
must be present in the re-read identifier set; rows whose first cell
raises `ValueError` are skipped (`except (ValueError, IndexError):
continue`); an exception while building the re-read set yields failure. -/
def verify_write_success (values written : List (List String)) : Bool :=
  if written.length ≤ 0 then true
  else
    match currentIdsOfValues values with
    | none => false
    | some ids =>
      written.all fun row =>
        match row.head? with
        | none => true
        | some c =>
          match pyFloatIntTrunc c with
          | some n => decide (n ∈ ids)
          | none => true

/-- Claim C9 counterexample: a non-empty batch whose only row has a
non-numeric first cell (so `float` raises and the presence check skips
it) is nevertheless reported as a verification failure for the re-read
below, because the re-read cell `"1.2.3"` passes the digit gate but makes
`int(float(...))` raise, which the outer handler turns into failure.  So
such a batch does not always pass "regardless of what the re-read
returns". -/
theorem verify_write_success_counterexample :
    pyFloatIntTrunc "x" = none ∧
    ([["x"]] : List (List String)) ≠ [] ∧
    verify_write_success [["id"], ["1.2.3"]] [["x"]] = false := by
  decide

/-- Claim C9 (amended): write verification only checks rows whose first
cell parses as a number — provided the re-read parse itself raises no
exception (`currentIdsOfValues` succeeds), a non-empty batch in which
every row's first cell raises on float conversion passes verification
and is reported as a successful write. -/
theorem verify_write_success_skips_nonnumeric (values written : List (List String))
    (hw : written ≠ [])
    (hnum : ∀ row ∈ written, ∀ c, row.head? = some c → pyFloatIntTrunc c = none)
    (hok : (currentIdsOfValues values).isSome = true) :
    verify_write_success values written = true := by
  rw [verify_write_success]
  have hlen : ¬ written.length ≤ 0 := by
    cases written with
    | nil => exact absurd rfl hw
    | cons r rs => simp
  rw [if_neg hlen]
  rcases Option.isSome_iff_exists.mp hok with ⟨ids, hids⟩
  rw [hids]
  rw [List.all_eq_true]
  intro row hrow
  cases hr : row.head? with
  | none => rfl
  | some c => simp [hnum row hrow c hr]

/-- Claim C9 (amended) witness: a batch with the sole non-numeric first
cell "abc" passes verification against a benign re-read. -/
theorem verify_write_success_skips_nonnumeric_witness :
    verify_write_success [["id"], ["5"]] [["abc"]] = true :=
  verify_write_success_skips_nonnumeric [["id"], ["5"]] [["abc"]]
    (by decide) (by decide) (by decide)

/-! ## Write-Verify-Retry pipeline and Counter Ledger
(`write_to_google_sheets_robust` lines 718-768, `append_to_sheet` lines
771-819, `save_to_csv` lines 131-141, `update_counters_after_processing`
lines 119-129) -/

/-- Result of one remote append+verify attempt: the append succeeded and
`verify_write_success` passed (`ok`), the append succeeded but
verification failed (`badVerify`), or the append raised a transport error
(`transportError`). -/
inductive AttemptOutcome
  | ok
  | badVerify
  | transportError
deriving DecidableEq

/-- The retry loop of `write_to_google_sheets_robust`: `k` attempts left,
`i` the index of the next attempt; any non-`ok` outcome is retried, and
exhaustion returns failure. -/
def robustLoop (outcome : Nat → AttemptOutcome) : Nat → Nat → Bool
  | 0, _ => false
  | k + 1, i =>
    match outcome i with
    | .ok => true
    | .badVerify => robustLoop outcome k (i + 1)
    | .transportError => robustLoop outcome k (i + 1)

/-- Embedding of `write_to_google_sheets_robust`: no-op success on empty
input, otherwise up to 3 append+verify attempts. -/
def write_to_google_sheets_robust (data : List (List String))
    (outcome : Nat → AttemptOutcome) : Bool :=
  if data.isEmpty then true else robustLoop outcome 3 0

/-- The local counter ledger (`campaign_counters.json`): the numeric
entries (keyed the way the JSON dict is keyed: `{sheet_type}_count` and
`total_processed`), plus the metadata fields. -/
structure Counters where
  num : String → Int
  last_updated : Option String
  campaign : Option String
  environment : Option String

/-- Embedding of `update_counters_after_processing`: bumps the per-kind
key and `total_processed` by `new_count` and stamps metadata (`now`
standing for `datetime.now().isoformat()`). -/
def update_counters_after_processing (counters : Counters) (sheet_type : String)
    (new_count : Nat) (campaign environment now : String) : Counters where
  num := fun k =>
    if k = "total_processed" then counters.num "total_processed" + new_count
    else if k = sheet_type ++ "_count" then counters.num (sheet_type ++ "_count") + new_count
    else counters.num k
  last_updated := some now
  campaign := some campaign
  environment := some environment

/-- Embedding of `save_to_csv`: opening with mode `'w'` replaces the
file's contents with exactly the given rows (only when the data is
non-empty; an empty batch leaves the file system untouched). -/
def save_to_csv (files : String → Option (List (List String)))
    (data : List (List String)) (filename : String) :
    String → Option (List (List String)) :=
  if 0 < data.length then
    fun f => if f = filename then some data else files f
  else files

/-- The CSV backup filename selection of `append_to_sheet`
(substring tests on `sheet_type`, as in the Python `in` checks). -/
def backupFilename (sheet_type : String) : String :=
  if pySub "course" sheet_type && pySub "success" sheet_type then
    "campaign_course_success_backup.csv"
  else if pySub "course" sheet_type && pySub "failed" sheet_type then
    "campaign_course_failed_backup.csv"
  else if pySub "ad" sheet_type && pySub "success" sheet_type then
    "campaign_ad_success_backup.csv"
  else if pySub "ad" sheet_type && pySub "failed" sheet_type then
    "campaign_ad_failed_backup.csv"
  else "campaign_" ++ sheet_type ++ "_backup.csv"

/-- Local durable state: the CSV backup files and the counter ledger. -/
structure LocalState where
  files : String → Option (List (List String))
  counters : Counters

/-- Embedding of `append_to_sheet`: on non-empty data, save the CSV
backup, run the robust write, and only on verified success update the
counter ledger; the returned number is `len(data) * len(data[0])` on
success and `0` on failure. -/
def append_to_sheet (data : List (List String))
    (sheet_type campaign environment now : String)
    (outcome : Nat → AttemptOutcome) (st : LocalState) : Nat × LocalState :=
  if data.isEmpty then (0, st)
  else if write_to_google_sheets_robust data outcome then
    (data.length * (data.head?.getD []).length,
     { files := save_to_csv st.files data (backupFilename sheet_type),
       counters := update_counters_after_processing st.counters sheet_type
         data.length campaign environment now })
  else
    (0, { files := save_to_csv st.files data (backupFilename sheet_type),
          counters := st.counters })

theorem robustLoop_eq_false (outcome : Nat → AttemptOutcome) (k i : Nat)
    (h : ∀ j, j < k → outcome (i + j) ≠ .ok) : robustLoop outcome k i = false := by
  induction k generalizing i with
  | zero => rfl
  | succ k ih =>
    rw [robustLoop]
    have h0 : outcome i ≠ .ok := by simpa using h 0 (Nat.succ_pos k)
    cases ho : outcome i with
    | ok => exact absurd ho h0
    | badVerify =>
      exact ih (i + 1) fun j hj => by
        have hh := h (j + 1) (Nat.succ_lt_succ hj)
        have he : i + (j + 1) = i + 1 + j := by omega
        rwa [he] at hh
    | transportError =>
      exact ih (i + 1) fun j hj => by
        have hh := h (j + 1) (Nat.succ_lt_succ hj)
        have he : i + (j + 1) = i + 1 + j := by omega
        rwa [he] at hh

theorem robustLoop_eq_true (outcome : Nat → AttemptOutcome) (k i : Nat)
    (h : ∃ j, j < k ∧ outcome (i + j) = .ok) : robustLoop outcome k i = true := by
  induction k generalizing i with
  | zero => rcases h with ⟨j, hj, _⟩; exact absurd hj (Nat.not_lt_zero j)
  | succ k ih =>
    rw [robustLoop]
    rcases h with ⟨j, hj, hok⟩
    cases j with
    | zero => rw [show i + 0 = i from rfl] at hok; rw [hok]
    | succ j =>
      have hok' : outcome (i + 1 + j) = .ok := by
        have he : i + (j + 1) = i + 1 + j := by omega
        rwa [he] at hok
      cases ho : outcome i with
      | ok => rfl
      | badVerify => exact ih (i + 1) ⟨j, Nat.lt_of_succ_lt_succ hj, hok'⟩
      | transportError => exact ih (i + 1) ⟨j, Nat.lt_of_succ_lt_succ hj, hok'⟩

theorem count_key_ne_total (st : String) : st ++ "_count" ≠ "total_processed" := by
  intro h
  have h2 := congrArg (fun s : String => s.data.reverse.take 6) h
  simp only [String.data_append, List.reverse_append] at h2
  rw [List.take_append_of_le_length (by decide)] at h2
  revert h2
  decide

/-- Claim C2: for every non-empty batch, if verification fails on all 3
attempts the pipeline returns failure and the counter ledger is left
untouched (per-kind count, total, timestamp and metadata all unchanged);
more generally the ledger is unchanged whenever no attempt verifies, and
it is bumped by exactly the batch size (per-kind and total) exactly when
some attempt's write verified. -/
theorem append_to_sheet_counter_ledger (data : List (List String))
    (sheet_type campaign environment now : String)
    (outcome : Nat → AttemptOutcome) (st : LocalState) (hd : data ≠ []) :
    ((∀ i, i < 3 → outcome i = .badVerify) →
      write_to_google_sheets_robust data outcome = false ∧
      (append_to_sheet data sheet_type campaign environment now outcome st).1 = 0 ∧
      (append_to_sheet data sheet_type campaign environment now outcome st).2.counters
        = st.counters) ∧
    ((∀ i, i < 3 → outcome i ≠ .ok) →
      (append_to_sheet data sheet_type campaign environment now outcome st).2.counters
        = st.counters) ∧
    ((∃ i, i < 3 ∧ outcome i = .ok) →
      (append_to_sheet data sheet_type campaign environment now outcome st).2.counters
          = update_counters_after_processing st.counters sheet_type data.length
              campaign environment now ∧
      (append_to_sheet data sheet_type campaign environment now outcome st).2.counters.num
          (sheet_type ++ "_count")
        = st.counters.num (sheet_type ++ "_count") + data.length ∧
      (append_to_sheet data sheet_type campaign environment now outcome st).2.counters.num
          "total_processed"
        = st.counters.num "total_processed" + data.length) := by
  have hne : ¬ data.isEmpty = true := by
    cases data with
    | nil => exact absurd rfl hd
    | cons r rs => simp
  refine ⟨?_, ?_, ?_⟩
  · intro hall
    have hfalse : write_to_google_sheets_robust data outcome = false := by
      rw [write_to_google_sheets_robust, if_neg hne]
      exact robustLoop_eq_false outcome 3 0 fun j hj => by
        rw [Nat.zero_add, hall j hj]; intro hc; cases hc
    have happ : append_to_sheet data sheet_type campaign environment now outcome st =
        (0, { files := save_to_csv st.files data (backupFilename sheet_type),
              counters := st.counters }) := by
      rw [append_to_sheet, if_neg hne, hfalse]
      simp
    exact ⟨hfalse, by rw [happ], by rw [happ]⟩
  · intro hall
    have hfalse : write_to_google_sheets_robust data outcome = false := by
      rw [write_to_google_sheets_robust, if_neg hne]
      exact robustLoop_eq_false outcome 3 0 fun j hj => by
        rw [Nat.zero_add]; exact hall j hj
    rw [append_to_sheet, if_neg hne, hfalse]
    simp
  · intro hok
    have htrue : write_to_google_sheets_robust data outcome = true := by
      rw [write_to_google_sheets_robust, if_neg hne]
      rcases hok with ⟨i, hi, hoki⟩
      exact robustLoop_eq_true outcome 3 0 ⟨i, hi, by rwa [Nat.zero_add]⟩
    rw [append_to_sheet, if_neg hne, htrue]
    simp only [if_true]
    refine ⟨trivial, ?_, ?_⟩
    · rw [update_counters_after_processing]
      simp [count_key_ne_total sheet_type]
    · rw [update_counters_after_processing]
      simp

/-- Claim C2 witness: with a batch of one row and every attempt failing
verification, the pipeline reports failure and the ledger is unchanged. -/
theorem append_to_sheet_counter_ledger_witness :
    write_to_google_sheets_robust [["7", "x"]] (fun _ => .badVerify) = false ∧
    (append_to_sheet [["7", "x"]] "course_success" "c" "live" "t"
      (fun _ => .badVerify)
      ⟨fun _ => none, ⟨fun _ => 0, none, none, none⟩⟩).1 = 0 ∧
    (append_to_sheet [["7", "x"]] "course_success" "c" "live" "t"
      (fun _ => .badVerify)
      ⟨fun _ => none, ⟨fun _ => 0, none, none, none⟩⟩).2.counters
      = (⟨fun _ => none, ⟨fun _ => 0, none, none, none⟩⟩ : LocalState).counters :=
  (append_to_sheet_counter_ledger [["7", "x"]] "course_success" "c" "live" "t"
    (fun _ => .badVerify) ⟨fun _ => none, ⟨fun _ => 0, none, none, none⟩⟩
    (by decide)).1 (fun _ _ => rfl)

/-- Claim C7 counterexample: `save_to_csv` opens the backup file with
mode `'w'`, so after `append_to_sheet` runs with a prior backup on disk,
the backup holds only the new batch — the prior contents are replaced,
not appended to. -/
theorem append_to_sheet_backup_counterexample :
    ((append_to_sheet [["new"]] "course_success" "c" "live" "t" (fun _ => .ok)
        ⟨fun f => if f = "campaign_course_success_backup.csv" then
            some [["old"]] else none,
          ⟨fun _ => 0, none, none, none⟩⟩).2.files
        "campaign_course_success_backup.csv" = some [["new"]]) ∧
    some ([["new"]] : List (List String)) ≠ some [["old"], ["new"]] := by
  constructor
  · rfl
  · decide

/-- Claim C7 (amended): for every non-empty batch, `append_to_sheet`
writes the batch to the backup file before the remote write attempts —
whatever every attempt's outcome, the final state's backup file holds the
batch and no other file changed — but the write replaces the file's
previous contents with the current batch (mode `'w'`), rather than
appending to them. -/
theorem append_to_sheet_backup (data : List (List String))
    (sheet_type campaign environment now : String)
    (outcome : Nat → AttemptOutcome) (st : LocalState) (hd : data ≠ []) :
    (append_to_sheet data sheet_type campaign environment now outcome st).2.files
      (backupFilename sheet_type) = some data ∧
    (∀ f, f ≠ backupFilename sheet_type →
      (append_to_sheet data sheet_type campaign environment now outcome st).2.files f
        = st.files f) := by
  have hne : ¬ data.isEmpty = true := by
    cases data with
    | nil => exact absurd rfl hd
    | cons r rs => simp
  have hpos : 0 < data.length := by
    cases data with
    | nil => exact absurd rfl hd
    | cons r rs => exact Nat.succ_pos _
  rw [append_to_sheet, if_neg hne]
  cases hw : write_to_google_sheets_robust data outcome <;>
    simp only [Bool.false_eq_true, if_false, if_true] <;>
      refine ⟨by rw [save_to_csv, if_pos hpos]; simp, fun f hf => ?_⟩ <;>
        rw [save_to_csv, if_pos hpos] <;> simp [hf]

/-- Claim C7 (amended) witness. -/
theorem append_to_sheet_backup_witness :
    (append_to_sheet [["new"]] "course_success" "c" "live" "t" (fun _ => .badVerify)
      ⟨fun _ => none, ⟨fun _ => 0, none, none, none⟩⟩).2.files
      (backupFilename "course_success") = some [["new"]] ∧
    (∀ f, f ≠ backupFilename "course_success" →
      (append_to_sheet [["new"]] "course_success" "c" "live" "t" (fun _ => .badVerify)
        ⟨fun _ => none, ⟨fun _ => 0, none, none, none⟩⟩).2.files f
        = (⟨fun _ => none, ⟨fun _ => 0, none, none, none⟩⟩ : LocalState).files f) :=
  append_to_sheet_backup [["new"]] "course_success" "c" "live" "t"
    (fun _ => .badVerify) ⟨fun _ => none, ⟨fun _ => 0, none, none, none⟩⟩ (by decide)

/-! ## Merge Reconciler (`merge_sheets`, lines 822-1045) -/

/-- Pad a row with empty cells up to the header's column count (the
`while len(row) < len(headers): row.append("")` loop). -/
def padRow (headers row : List String) : List String :=
  row ++ List.replicate (headers.length - row.length) ""

/-- Python-dict insertion on an association list: updating an existing
key keeps its position, a new key is appended. -/
def dictInsert (d : List (String × List String)) (k : String)
    (v : List String) : List (String × List String) :=
  if d.any (fun p => p.1 = k) then
    d.map (fun p => if p.1 = k then (k, v) else p)
  else d ++ [(k, v)]

/-- Lookup in the association-list model of a Python dict. -/
def dlookup (d : List (String × List String)) (k : String) :
    Option (List String) :=
  (d.find? (fun p => p.1 = k)).map (fun p => p.2)

/-- One source pass of the merge loop (lines 968-1000): rows with a
non-empty first cell whose key is not among the existing merge-target
keys are inserted (padded) into the working dict; everything else is
skipped. -/
def addRows (existing_keys : Finset String) (headers : List String)
    (d : List (String × List String)) (rows : List (List String)) :
    List (String × List String) :=
  rows.foldl
    (fun d row =>
      match row.head? with
      | none => d
      | some c =>
        if c ≠ "" ∧ c ∉ existing_keys then dictInsert d c (padRow headers row)
        else d)
    d

/-- The merge's new-rows dict for one merge class: course rows first,
then ad rows (which therefore overwrite on key collision). -/
def new_merged_rows (headers : List String) (existing_keys : Finset String)
    (course_data ad_data : List (List String)) :
    List (String × List String) :=
  addRows existing_keys headers (addRows existing_keys headers [] course_data)
    ad_data

/-- One row of the `existing_keys` collection loop (lines 929-932). -/
def keyStep (s : Finset String) (row : List String) : Finset String :=
  match row.head? with
  | none => s
  | some c => if c ≠ "" then insert c s else s

/-- Keys found in the first column of a list of data rows (non-empty
first cell only), as the merge code collects `existing_keys`. -/
def keysOfRows (rows : List (List String)) : Finset String :=
  rows.foldl keyStep ∅

/-- `existing_keys` of the merge target table: skip the header row, then
collect first-column keys. -/
def existing_keys_of (mergeRows : List (List String)) : Finset String :=
  keysOfRows mergeRows.tail

/-- The per-key eligibility test of the merge loop. -/
def mergeEligible (existing_keys : Finset String) (k : String)
    (row : List String) : Prop :=
  row.head? = some k ∧ k ≠ "" ∧ k ∉ existing_keys

instance (existing_keys : Finset String) (k : String) (row : List String) :
    Decidable (mergeEligible existing_keys k row) := by
  unfold mergeEligible
  infer_instance

/-- The last row of `rows` (if any) that would insert key `k`: the merge
loop's final value for `k` comes from it. -/
def lastEligible (existing_keys : Finset String) (rows : List (List String))
    (k : String) : Option (List String) :=
  rows.reverse.find? (fun row => decide (mergeEligible existing_keys k row))

theorem find_map_ne (k k' : String) (v : List String)
    (d : List (String × List String)) (hk' : k' ≠ k) :
    (d.map (fun p => if p.1 = k then (k, v) else p)).find? (fun p => p.1 = k')
      = d.find? (fun p => p.1 = k') := by
  induction d with
  | nil => rfl
  | cons p rest ih =>
    rw [List.map_cons]
    by_cases hpk : p.1 = k
    · rw [if_pos hpk]
      rw [List.find?_cons_of_neg _ (by simpa using fun h => hk' h.symm),
        List.find?_cons_of_neg _
          (by simpa using fun h => hk' (hpk.symm.trans h).symm)]
      exact ih
    · rw [if_neg hpk]
      by_cases hpk' : p.1 = k'
      · rw [List.find?_cons_of_pos _ (by simpa using hpk'),
          List.find?_cons_of_pos _ (by simpa using hpk')]
      · rw [List.find?_cons_of_neg _ (by simpa using hpk'),
          List.find?_cons_of_neg _ (by simpa using hpk')]
        exact ih

theorem find_map_eq (k : String) (v : List String)
    (d : List (String × List String)) (hany : d.any (fun p => p.1 = k) = true) :
    (d.map (fun p => if p.1 = k then (k, v) else p)).find? (fun p => p.1 = k)
      = some (k, v) := by
  induction d with
  | nil => cases hany
  | cons p rest ih =>
    rw [List.map_cons]
    by_cases hpk : p.1 = k
    · rw [if_pos hpk, List.find?_cons_of_pos _ (by simp)]
    · rw [if_neg hpk, List.find?_cons_of_neg _ (by simpa using hpk)]
      rw [List.any_cons, Bool.or_eq_true] at hany
      rcases hany with h | h
      · exact absurd (by simpa using h) hpk
      · exact ih h

theorem dlookup_dictInsert (d : List (String × List String)) (k k' : String)
    (v : List String) :
    dlookup (dictInsert d k v) k' =
      if k' = k then some v else dlookup d k' := by
  rw [dictInsert]
  by_cases hany : d.any (fun p => p.1 = k) = true
  · rw [if_pos hany, dlookup]
    by_cases hk' : k' = k
    · rw [hk', find_map_eq k v d hany, if_pos rfl]
      rfl
    · rw [find_map_ne k k' v d hk', if_neg hk']
      rfl
  · rw [if_neg hany, dlookup, List.find?_append]
    have hanyf : d.any (fun p => p.1 = k) = false := by
      cases h : d.any (fun p => p.1 = k) with
      | false => rfl
      | true => exact absurd h hany
    rw [List.any_eq_false] at hanyf
    by_cases hk' : k' = k
    · have hnone : d.find? (fun p => p.1 = k') = none := by
        rw [List.find?_eq_none]
        intro p hp
        have := hanyf p hp
        rw [hk']
        simpa using this
      rw [hnone, if_pos hk']
      subst hk'
      simp
    · have hnone : (([(k, v)] : List (String × List String)).find?
          (fun p => p.1 = k')) = none := by
        rw [List.find?_cons_of_neg _ (by simpa using fun h => hk' h.symm)]
        rfl
      rw [hnone, if_neg hk']
      cases h : d.find? (fun p => p.1 = k') <;> simp [dlookup, h]

theorem addRows_cons (ek : Finset String) (hs : List String)
    (d : List (String × List String)) (r : List String)
    (rs : List (List String)) :
    addRows ek hs d (r :: rs) =
      addRows ek hs
        (match r.head? with
         | none => d
         | some c =>
           if c ≠ "" ∧ c ∉ ek then dictInsert d c (padRow hs r) else d)
        rs := by
  rw [addRows, List.foldl_cons]
  rfl

theorem lastEligible_cons (ek : Finset String) (r : List String)
    (rs : List (List String)) (k : String) :
    lastEligible ek (r :: rs) k =
      match lastEligible ek rs k with
      | some row => some row
      | none => if mergeEligible ek k r then some r else none := by
  rw [lastEligible, lastEligible, List.reverse_cons, List.find?_append]
  cases h : rs.reverse.find? (fun row => decide (mergeEligible ek k row)) with
  | some row => rfl
  | none =>
    by_cases he : mergeEligible ek k r
    · simp [List.find?, he]
    · simp [List.find?, he]

theorem dlookup_addRows (ek : Finset String) (hs : List String)
    (rows : List (List String)) (d : List (String × List String)) (k : String) :
    dlookup (addRows ek hs d rows) k =
      match lastEligible ek rows k with
      | some row => some (padRow hs row)
      | none => dlookup d k := by
  induction rows generalizing d with
  | nil => rfl
  | cons r rs ih =>
    rw [addRows_cons, ih, lastEligible_cons]
    cases hlast : lastEligible ek rs k with
    | some row => rfl
    | none =>
      by_cases he : mergeEligible ek k r
      · have he' := he
        obtain ⟨hh, hk, hnk⟩ := he'
        simp only [hh, if_pos he, if_pos (And.intro hk hnk), dlookup_dictInsert,
          if_pos rfl]
        simp
      · rw [if_neg he]
        cases hh : r.head? with
        | none => simp only [hh]
        | some c =>
          by_cases hc : c ≠ "" ∧ c ∉ ek
          · have hkc : k ≠ c := by
              rintro rfl
              exact he ⟨hh, hc.1, hc.2⟩
            simp only [hh, if_pos hc, dlookup_dictInsert, if_neg hkc]
          · simp only [hh, if_neg hc]

theorem mem_dictInsert (q : String × List String)
    (d : List (String × List String)) (k : String) (v : List String)
    (hq : q ∈ dictInsert d k v) : q ∈ d ∨ q = (k, v) := by
  rw [dictInsert] at hq
  by_cases hany : d.any (fun p => p.1 = k) = true
  · rw [if_pos hany] at hq
    rcases List.mem_map.mp hq with ⟨p, hp, hfp⟩
    by_cases hpk : p.1 = k
    · rw [if_pos hpk] at hfp
      exact Or.inr hfp.symm
    · rw [if_neg hpk] at hfp
      exact Or.inl (hfp ▸ hp)
  · rw [if_neg hany] at hq
    rcases List.mem_append.mp hq with h | h
    · exact Or.inl h
    · exact Or.inr (by simpa using h)

theorem mem_addRows (ek : Finset String) (hs : List String)
    (rows : List (List String)) :
    ∀ d q, q ∈ addRows ek hs d rows →
      q ∈ d ∨ ∃ row ∈ rows, mergeEligible ek q.1 row ∧ q.2 = padRow hs row := by
  induction rows with
  | nil => intro d q hq; exact Or.inl hq
  | cons r rs ih =>
    intro d q hq
    rw [addRows_cons] at hq
    rcases ih _ q hq with h | ⟨row, hrow, he, hp⟩
    · cases hh : r.head? with
      | none =>
        rw [hh] at h
        exact Or.inl h
      | some c =>
        rw [hh] at h
        dsimp only at h
        by_cases hc : c ≠ "" ∧ c ∉ ek
        · rw [if_pos hc] at h
          rcases mem_dictInsert q d c (padRow hs r) h with h2 | h2
          · exact Or.inl h2
          · refine Or.inr ⟨r, List.mem_cons_self r rs, ?_, by rw [h2]⟩
            rw [h2]
            exact ⟨hh, hc.1, hc.2⟩
        · rw [if_neg hc] at h
          exact Or.inl h
    · exact Or.inr ⟨row, List.mem_cons_of_mem r hrow, he, hp⟩

theorem lastEligible_isSome_iff (ek : Finset String)
    (rows : List (List String)) (k : String) :
    (lastEligible ek rows k).isSome = true ↔
      ∃ row ∈ rows, mergeEligible ek k row := by
  rw [lastEligible, List.find?_isSome]
  constructor
  · rintro ⟨row, hrow, hp⟩
    exact ⟨row, List.mem_reverse.mp hrow, by simpa using hp⟩
  · rintro ⟨row, hrow, hp⟩
    exact ⟨row, List.mem_reverse.mpr hrow, by simpa using hp⟩

theorem padRow_length (hs row : List String) :
    (padRow hs row).length = row.length + (hs.length - row.length) := by
  rw [padRow, List.length_append, List.length_replicate]

/-- Claim C3: for every pair of source tables and target key set, a key
is present in the merge's new-rows dict exactly when some source row has
that non-empty first-column key outside `existing_keys`; when an ad
(source-B) row carries the key, the stored value is the padded last such
ad row (source B wins a collision with course data); and every stored row
is a source row padded with empty cells up to the header's column
count. -/
theorem merge_new_rows_spec (hs : List String) (ek : Finset String)
    (course_data ad_data : List (List String)) (k : String) :
    ((dlookup (new_merged_rows hs ek course_data ad_data) k).isSome = true ↔
      ∃ row ∈ course_data ++ ad_data, mergeEligible ek k row) ∧
    (∀ row, lastEligible ek ad_data k = some row →
      dlookup (new_merged_rows hs ek course_data ad_data) k
        = some (padRow hs row)) ∧
    (∀ p ∈ new_merged_rows hs ek course_data ad_data,
      ∃ row ∈ course_data ++ ad_data, mergeEligible ek p.1 row ∧
        p.2 = padRow hs row ∧ hs.length ≤ p.2.length) := by
  have hmain : dlookup (new_merged_rows hs ek course_data ad_data) k =
      match lastEligible ek ad_data k with
      | some row => some (padRow hs row)
      | none =>
        match lastEligible ek course_data k with
        | some row => some (padRow hs row)
        | none => none := by
    rw [new_merged_rows, dlookup_addRows]
    cases lastEligible ek ad_data k with
    | some row => rfl
    | none =>
      rw [dlookup_addRows]
      cases lastEligible ek course_data k with
      | some row => rfl
      | none => rfl
  refine ⟨?_, ?_, ?_⟩
  · rw [hmain]
    cases had : lastEligible ek ad_data k with
    | some row =>
      simp only [Option.isSome_some, true_iff]
      have : (lastEligible ek ad_data k).isSome = true := by rw [had]; rfl
      rcases (lastEligible_isSome_iff ek ad_data k).mp this with ⟨row', hrow', he'⟩
      exact ⟨row', List.mem_append.mpr (Or.inr hrow'), he'⟩
    | none =>
      cases hco : lastEligible ek course_data k with
      | some row =>
        simp only [Option.isSome_some, true_iff]
        have : (lastEligible ek course_data k).isSome = true := by rw [hco]; rfl
        rcases (lastEligible_isSome_iff ek course_data k).mp this with ⟨row', hrow', he'⟩
        exact ⟨row', List.mem_append.mpr (Or.inl hrow'), he'⟩
      | none =>
        refine iff_of_false (by simp) ?_
        rintro ⟨row, hrow, he⟩
        rcases List.mem_append.mp hrow with h | h
        · have : (lastEligible ek course_data k).isSome = true :=
            (lastEligible_isSome_iff ek course_data k).mpr ⟨row, h, he⟩
          rw [hco] at this
          cases this
        · have : (lastEligible ek ad_data k).isSome = true :=
            (lastEligible_isSome_iff ek ad_data k).mpr ⟨row, h, he⟩
          rw [had] at this
          cases this
  · intro row hrow
    rw [hmain, hrow]
  · intro p hp
    rcases mem_addRows ek hs ad_data _ p hp with h | ⟨row, hrow, he, hpad⟩
    · rcases mem_addRows ek hs course_data _ p h with h2 | ⟨row, hrow, he, hpad⟩
      · cases h2
      · exact ⟨row, List.mem_append.mpr (Or.inl hrow), he, hpad,
          by rw [hpad, padRow_length]; omega⟩
    · exact ⟨row, List.mem_append.mpr (Or.inr hrow), he, hpad,
        by rw [hpad, padRow_length]; omega⟩

/-- Claim C3 witness: the spec's own precedence example — source A
`{1: "a"}`, source B `{1: "b", 2: "c"}`, empty target — stores the ad row
for key 1. -/
theorem merge_new_rows_spec_witness :
    dlookup (new_merged_rows ["Ref", "X"] ∅ [["1", "a"]]
      [["1", "b"], ["2", "c"]]) "1" = some (padRow ["Ref", "X"] ["1", "b"]) :=
  (merge_new_rows_spec ["Ref", "X"] ∅ [["1", "a"]] [["1", "b"], ["2", "c"]]
    "1").2.1 ["1", "b"] (by decide)

theorem mem_foldl_keyStep (rows : List (List String)) (s : Finset String)
    (k : String) :
    k ∈ rows.foldl keyStep s ↔
      k ∈ s ∨ ∃ row ∈ rows, row.head? = some k ∧ k ≠ "" := by
  induction rows generalizing s with
  | nil => simp
  | cons r rs ih =>
    rw [List.foldl_cons, ih]
    have hstep : k ∈ keyStep s r ↔
        k ∈ s ∨ (r.head? = some k ∧ k ≠ "") := by
      rw [keyStep]
      cases hr : r.head? with
      | none => simp
      | some c =>
        dsimp only
        by_cases hc : c ≠ ""
        · rw [if_pos hc]
          rw [Finset.mem_insert]
          constructor
          · rintro (rfl | h)
            · exact Or.inr ⟨rfl, hc⟩
            · exact Or.inl h
          · rintro (h | ⟨hck, _⟩)
            · exact Or.inr h
            · exact Or.inl (Option.some_inj.mp hck).symm
        · rw [if_neg hc]
          constructor
          · exact Or.inl
          · rintro (h | ⟨hck, hk⟩)
            · exact h
            · exact absurd ((Option.some_inj.mp hck) ▸ hk) hc
    rw [hstep]
    simp only [List.mem_cons]
    constructor
    · rintro ((h | h) | ⟨row, hrow, hx⟩)
      · exact Or.inl h
      · exact Or.inr ⟨r, Or.inl rfl, h⟩
      · exact Or.inr ⟨row, Or.inr hrow, hx⟩
    · rintro (h | ⟨row, (rfl | hrow), hx⟩)
      · exact Or.inl (Or.inl h)
      · exact Or.inl (Or.inr hx)
      · exact Or.inr ⟨row, hrow, hx⟩

theorem mem_keysOfRows (rows : List (List String)) (k : String) :
    k ∈ keysOfRows rows ↔ ∃ row ∈ rows, row.head? = some k ∧ k ≠ "" := by
  rw [keysOfRows, mem_foldl_keyStep]
  simp

theorem addRows_eq_of_no_eligible (ek : Finset String) (hs : List String)
    (rows : List (List String)) :
    ∀ d, (∀ row ∈ rows, ∀ c, row.head? = some c → ¬(c ≠ "" ∧ c ∉ ek)) →
      addRows ek hs d rows = d := by
  induction rows with
  | nil => intro d _; rfl
  | cons r rs ih =>
    intro d h
    rw [addRows_cons]
    have hstep : (match r.head? with
        | none => d
        | some c =>
          if c ≠ "" ∧ c ∉ ek then dictInsert d c (padRow hs r) else d) = d := by
      cases hr : r.head? with
      | none => rfl
      | some c =>
        dsimp only
        rw [if_neg (h r (List.mem_cons_self r rs) c hr)]
    rw [hstep]
    exact ih d fun row hrow => h row (List.mem_cons_of_mem r hrow)

theorem padRow_head (hs row : List String) (c : String)
    (h : row.head? = some c) : (padRow hs row).head? = some c := by
  cases row with
  | nil => cases h
  | cons a l =>
    rw [padRow, List.cons_append]
    simpa using h

theorem dlookup_isSome_key_mem (d : List (String × List String)) (k : String)
    (h : (dlookup d k).isSome = true) : ∃ p ∈ d, p.1 = k := by
  rw [dlookup] at h
  cases hf : d.find? (fun p => p.1 = k) with
  | none => rw [hf] at h; cases h
  | some p =>
    refine ⟨p, List.mem_of_find?_eq_some hf, ?_⟩
    have := List.find?_some hf
    simpa using this

theorem dlookup_new_isSome (hs : List String) (ek : Finset String)
    (course_data ad_data : List (List String)) (c : String)
    (h : ∃ row ∈ course_data ++ ad_data, mergeEligible ek c row) :
    (dlookup (new_merged_rows hs ek course_data ad_data) c).isSome = true := by
  rw [new_merged_rows, dlookup_addRows]
  rcases h with ⟨row, hrow, he⟩
  rcases List.mem_append.mp hrow with hmem | hmem
  · cases h1 : lastEligible ek ad_data c with
    | some row' => rfl
    | none =>
      rw [dlookup_addRows]
      cases h2 : lastEligible ek course_data c with
      | some row' => rfl
      | none =>
        have hx := (lastEligible_isSome_iff ek course_data c).mpr ⟨row, hmem, he⟩
        rw [h2] at hx
        cases hx
  · cases h1 : lastEligible ek ad_data c with
    | some row' => rfl
    | none =>
      have hx := (lastEligible_isSome_iff ek ad_data c).mpr ⟨row, hmem, he⟩
      rw [h1] at hx
      cases hx

/-- Claim C4: merge is idempotent.  With unchanged source tables, once
the first run's new rows are appended to the merge target (headers
written first when the target was empty), the second run's `existing_keys`
covers every candidate key, so the second run produces no new rows and
reports 0 merged rows for that merge class. -/
theorem merge_sheets_idempotent (hs : List String)
    (targetRows course_data ad_data : List (List String)) :
    new_merged_rows hs
      (existing_keys_of
        ((if targetRows.isEmpty then [hs] else targetRows) ++
          (new_merged_rows hs (existing_keys_of targetRows) course_data
            ad_data).map (fun p => p.2)))
      course_data ad_data = [] ∧
    (new_merged_rows hs
      (existing_keys_of
        ((if targetRows.isEmpty then [hs] else targetRows) ++
          (new_merged_rows hs (existing_keys_of targetRows) course_data
            ad_data).map (fun p => p.2)))
      course_data ad_data).length = 0 := by
  set ek1 := existing_keys_of targetRows with hek1
  set d1 := new_merged_rows hs ek1 course_data ad_data with hd1
  set target2 := (if targetRows.isEmpty then [hs] else targetRows) ++
    d1.map (fun p => p.2) with htarget2
  set ek2 := existing_keys_of target2 with hek2
  have htail : target2.tail = targetRows.tail ++ d1.map (fun p => p.2) := by
    rw [htarget2]
    cases targetRows with
    | nil => rfl
    | cons t ts => rfl
  have hsub : ∀ c, c ∈ ek1 → c ∈ ek2 := by
    intro c hc
    rw [hek1, existing_keys_of, mem_keysOfRows] at hc
    rcases hc with ⟨row, hrow, hh, hc0⟩
    rw [hek2, existing_keys_of, htail, mem_keysOfRows]
    exact ⟨row, List.mem_append.mpr (Or.inl hrow), hh, hc0⟩
  have hvals : ∀ p ∈ d1, p.1 ∈ ek2 := by
    intro p hp
    rcases mem_addRows ek1 hs ad_data _ p hp with h | ⟨row, hrow, he, hpad⟩
    · rcases mem_addRows ek1 hs course_data _ p h with h2 | ⟨row, hrow, he, hpad⟩
      · cases h2
      · rw [hek2, existing_keys_of, htail, mem_keysOfRows]
        refine ⟨p.2, List.mem_append.mpr (Or.inr (List.mem_map.mpr ⟨p, hp, rfl⟩)),
          ?_, he.2.1⟩
        rw [hpad]
        exact padRow_head hs row p.1 he.1
    · rw [hek2, existing_keys_of, htail, mem_keysOfRows]
      refine ⟨p.2, List.mem_append.mpr (Or.inr (List.mem_map.mpr ⟨p, hp, rfl⟩)),
        ?_, he.2.1⟩
      rw [hpad]
      exact padRow_head hs row p.1 he.1
  have hnoelig : ∀ (rows : List (List String)),
      (∀ row ∈ rows, row ∈ course_data ++ ad_data) →
      ∀ row ∈ rows, ∀ c, row.head? = some c → ¬(c ≠ "" ∧ c ∉ ek2) := by
    intro rows hsubrows row hrow c hh
    rintro ⟨hc0, hc2⟩
    have hc1 : c ∉ ek1 := fun hmem => hc2 (hsub c hmem)
    have helig : mergeEligible ek1 c row := ⟨hh, hc0, hc1⟩
    have hsome := dlookup_new_isSome hs ek1 course_data ad_data c
      ⟨row, hsubrows row hrow, helig⟩
    rcases dlookup_isSome_key_mem _ c hsome with ⟨p, hp, hpk⟩
    exact hc2 (hpk ▸ hvals p hp)
  have hcourse : addRows ek2 hs [] course_data = [] :=
    addRows_eq_of_no_eligible ek2 hs course_data []
      (hnoelig course_data fun row hrow => List.mem_append.mpr (Or.inl hrow))
  have had : addRows ek2 hs (addRows ek2 hs [] course_data) ad_data
      = addRows ek2 hs [] course_data :=
    addRows_eq_of_no_eligible ek2 hs ad_data _
      (hnoelig ad_data fun row hrow => List.mem_append.mpr (Or.inr hrow))
  have hfinal : new_merged_rows hs ek2 course_data ad_data = [] := by
    rw [new_merged_rows, had, hcourse]
  exact ⟨hfinal, by rw [hfinal]; rfl⟩

/-! ## Filter Builder (`build_course_query` lines 429-511,
`build_landing_page_query` lines 513-591) -/

/-- Python `sep.join(l)`. -/
def joinWith (sep : String) : List String → String
  | [] => ""
  | [x] => x
  | x :: y :: xs => x ++ sep ++ joinWith sep (y :: xs)

/-- Domain configuration for one campaign, as looked up in
`config_campaign.py`'s dicts (`course_types`, `course_ids`,
`date_filters`, `exclude_filters`, `landing_pages`); `none` models the
campaign being absent from the corresponding dict. -/
structure CampaignConfig where
  courseTypes : Option (List Int)
  courseIds : Option (List Int)
  dateFilter : Option String
  excludeFilter : Option String
  landingPages : Option (List String)

/-- The two `status_type` values the main loop passes. -/
inductive StatusType
  | success
  | failed

/-- `','.join(map(str, ids))`. -/
def joinInts (ids : List Int) : String :=
  joinWith "," (ids.map toString)

/-- The duplicate-exclusion clause added when `existing_ids` is
non-empty. -/
def notInClause (ids : List Int) : String :=
  "(cpd.`id` NOT IN (" ++ joinInts ids ++ "))"

/-- The participant-status clause: success maps to the inclusive pair
(5, 19), failure to `status_types['failed'] = 1`. -/
def statusClause : StatusType → String
  | .success => "cpd.`participant_status` IN (5, 19)"
  | .failed => "cpd.`participant_status` = " ++ toString (1 : Int)

/-- The clock-skew clause appended to every query. -/
def timeClause : String :=
  "cpd.`submitted_on` <= DATE_SUB(DATE_ADD(NOW(), INTERVAL 5.5 HOUR), INTERVAL 5 MINUTE)"

/-- WHERE clauses of `build_course_query`, in the order the Python code
appends them; the exclusion clause appears exactly when `existing_ids`
is non-empty, and the exclude filter only when configured non-empty
(Python truthiness). -/
def build_course_where (cfg : CampaignConfig) (status : StatusType)
    (existing_ids : List Int) : List String :=
  (match cfg.courseTypes with
   | some ts => ["ce.`event_type_id` IN (" ++ joinInts ts ++ ")"]
   | none => []) ++
  (match cfg.courseIds with
   | some cids => ["cpd.`entity_id` IN (" ++ joinInts cids ++ ")"]
   | none => []) ++
  (if existing_ids.isEmpty then [] else [notInClause existing_ids]) ++
  (match cfg.dateFilter with
   | some s => [s]
   | none => []) ++
  [statusClause status] ++
  [timeClause] ++
  (match cfg.excludeFilter with
   | some s => if s ≠ "" then [s] else []
   | none => [])

/-- The per-landing-page LIKE conditions (three per configured page, in
order). -/
def lpConditions (lps : List String) : List String :=
  lps.flatMap fun lp =>
    ["cpd.`reg_utm_url` LIKE '%" ++ lp ++ "%'",
     "cpd.`referal_site` LIKE '%" ++ lp ++ "%'",
     "cpd.`reg_utm_url` LIKE '%greferrer=%" ++ lp ++ "%'"]

/-- The OR-joined landing-page filter. -/
def lpFilter (lps : List String) : String :=
  "(" ++ joinWith " OR " (lpConditions lps) ++ ")"

/-- WHERE clauses of `build_landing_page_query`, in order. -/
def build_lp_where (cfg : CampaignConfig) (status : StatusType)
    (existing_ids : List Int) : List String :=
  (match cfg.landingPages with
   | some lps => [lpFilter lps]
   | none => []) ++
  (if existing_ids.isEmpty then [] else [notInClause existing_ids]) ++
  (match cfg.dateFilter with
   | some s => [s]
   | none => []) ++
  [statusClause status] ++
  [timeClause]

/-- The SELECT/FROM text shared by both query builders, up to the WHERE
condition. -/
def queryHead : String :=
  "\n    SELECT \n        cpd.`id`,\n        cpd.`entity_id`,\n        ce.`event_type_id`,\n        ce.`id` as eid,\n        ce.`title`,\n        pei.`accounting_course_id_201`,\n        CONCAT(cpd.`first_name`, ' ', cpd.`last_name`) AS `name`,\n        cpd.`participant_email`,\n        cpd.`participant_phone`,\n        cpd.`pincode`,\n        cpd.`submitted_on`,\n        cpd.`referal_site`,\n        cpd.`reg_utm_url`,\n        pt.`pg_res_msg`,\n        pt.`pg_res_code`,\n        pt.`id` AS ptid\n    FROM \n        `civicrm_course_participants_details` cpd\n    INNER JOIN \n        `civicrm_event` ce ON ce.`id` = cpd.`entity_id`\n    INNER JOIN \n        `civicrm_value_private_event_information_33` pei ON pei.`entity_id` = ce.`id`\n    INNER JOIN \n        `payment_transactions` pt ON pt.`participant_id` = cpd.`id`\n    WHERE "

/-- The GROUP BY/ORDER BY tail shared by both query builders. -/
def queryTail : String :=
  "\n    GROUP BY cpd.`id`\n    ORDER BY `submitted_on` ASC\n    "

/-- Embedding of `build_course_query`. -/
def build_course_query (cfg : CampaignConfig) (status : StatusType)
    (existing_ids : List Int) : String :=
  queryHead ++ joinWith " AND " (build_course_where cfg status existing_ids)
    ++ queryTail

/-- Embedding of `build_landing_page_query`. -/
def build_landing_page_query (cfg : CampaignConfig) (status : StatusType)
    (existing_ids : List Int) : String :=
  queryHead ++ joinWith " AND " (build_lp_where cfg status existing_ids)
    ++ queryTail

/-- The text that marks the duplicate-exclusion clause. -/
def exclusionMark : String := "(cpd.`id` NOT IN ("

theorem take_eq_of_isPre {p l : List Char} (h : p <+: l) {n : Nat}
    (hn : n ≤ p.length) : l.take n = p.take n := by
  obtain ⟨r, rfl⟩ := h
  exact List.take_append_of_le_length hn

theorem not_pre_of_take_ne {p l : List Char} (n : Nat) (hn : n ≤ p.length)
    (h : p.take n ≠ l.take n) : ¬ p <+: l :=
  fun hp => h (take_eq_of_isPre hp hn).symm

theorem data_take_append (a b : String) (n : Nat) (hn : n ≤ a.data.length) :
    ((a ++ b).data).take n = a.data.take n := by
  rw [String.data_append, List.take_append_of_le_length hn]

theorem take_of_double_append (a b c : String) (n : Nat)
    (ha : n ≤ a.data.length) :
    ((a ++ b ++ c).data).take n = a.data.take n := by
  rw [String.data_append, String.data_append]
  have h1 : n ≤ (a.data ++ b.data).length := by
    rw [List.length_append]; omega
  rw [List.take_append_of_le_length h1, List.take_append_of_le_length ha]

theorem pre_of_string_append (a b : String) : a.data <+: (a ++ b).data := by
  rw [String.data_append]
  exact ⟨b.data, rfl⟩

theorem infix_of_pre {l m : List Char} (h : l <+: m) : l <:+: m := by
  obtain ⟨r, rfl⟩ := h
  exact ⟨[], r, by simp⟩

theorem infix_append_left_char (pre : List Char) {l m : List Char}
    (h : l <:+: m) : l <:+: pre ++ m := by
  obtain ⟨a, b, rfl⟩ := h
  exact ⟨pre ++ a, b, by simp [List.append_assoc]⟩

theorem infix_append_right_char (post : List Char) {l m : List Char}
    (h : l <:+: m) : l <:+: m ++ post := by
  obtain ⟨a, b, rfl⟩ := h
  exact ⟨a, b ++ post, by simp [List.append_assoc]⟩

theorem mem_joinWith_infix (sep : String) (l : List String) (a : String)
    (ha : a ∈ l) : a.data <:+: (joinWith sep l).data := by
  induction l with
  | nil => cases ha
  | cons x xs ih =>
    rcases List.mem_cons.mp ha with rfl | hmem
    · cases xs with
      | nil => exact ⟨[], [], by simp [joinWith]⟩
      | cons y ys =>
        show a.data <:+: ((a ++ sep ++ joinWith sep (y :: ys))).data
        have h1 : a.data <+: ((a ++ sep) ++ joinWith sep (y :: ys)).data :=
          (pre_of_string_append a sep).trans
            (pre_of_string_append (a ++ sep) (joinWith sep (y :: ys)))
        exact infix_of_pre h1
    · cases xs with
      | nil => cases hmem
      | cons y ys =>
        show a.data <:+: ((x ++ sep ++ joinWith sep (y :: ys))).data
        rw [String.data_append]
        exact infix_append_left_char _ (ih hmem)

theorem mark_pre_notInClause (ids : List Int) :
    exclusionMark.data <+: (notInClause ids).data := by
  rw [notInClause, exclusionMark]
  exact (pre_of_string_append _ _).trans (pre_of_string_append _ _)

theorem mark_not_pre_ct (ts : List Int) :
    ¬ exclusionMark.data <+: ("ce.`event_type_id` IN (" ++ joinInts ts ++ ")").data := by
  apply not_pre_of_take_ne 1 (by decide)
  rw [take_of_double_append _ _ _ 1 (by decide)]
  decide

theorem mark_not_pre_cid (cids : List Int) :
    ¬ exclusionMark.data <+: ("cpd.`entity_id` IN (" ++ joinInts cids ++ ")").data := by
  apply not_pre_of_take_ne 1 (by decide)
  rw [take_of_double_append _ _ _ 1 (by decide)]
  decide

theorem mark_not_pre_status (status : StatusType) :
    ¬ exclusionMark.data <+: (statusClause status).data := by
  cases status with
  | success => decide
  | failed =>
    apply not_pre_of_take_ne 1 (by decide)
    rw [statusClause, data_take_append _ _ 1 (by decide)]
    decide

theorem mark_not_pre_time : ¬ exclusionMark.data <+: timeClause.data := by
  decide

theorem mark_not_pre_lpFilter (lps : List String) :
    ¬ exclusionMark.data <+: (lpFilter lps).data := by
  cases lps with
  | nil => decide
  | cons lp rest =>
    have hconds : lpConditions (lp :: rest) =
        ("cpd.`reg_utm_url` LIKE '%" ++ lp ++ "%'") ::
        ("cpd.`referal_site` LIKE '%" ++ lp ++ "%'") ::
        ("cpd.`reg_utm_url` LIKE '%greferrer=%" ++ lp ++ "%'") ::
        lpConditions rest := by
      rw [lpConditions, List.flatMap_cons]
      rfl
    have hc1take : (("cpd.`reg_utm_url` LIKE '%" ++ lp ++ "%'") : String).data.take 7
        = ("cpd.`re" : String).data := by
      rw [take_of_double_append _ _ _ 7 (by decide)]
      decide
    have hc1len : 7 ≤ (("cpd.`reg_utm_url` LIKE '%" ++ lp ++ "%'") : String).data.length := by
      rw [String.data_append, String.data_append, List.length_append,
        List.length_append]
      have : (("cpd.`reg_utm_url` LIKE '%" : String)).data.length = 25 := by decide
      omega
    have hJ : (joinWith " OR " (lpConditions (lp :: rest))).data.take 7
        = ("cpd.`re" : String).data := by
      rw [hconds]
      show ((("cpd.`reg_utm_url` LIKE '%" ++ lp ++ "%'") ++ " OR " ++
        joinWith " OR " (("cpd.`referal_site` LIKE '%" ++ lp ++ "%'") ::
          ("cpd.`reg_utm_url` LIKE '%greferrer=%" ++ lp ++ "%'") ::
          lpConditions rest)).data).take 7 = _
      rw [take_of_double_append _ _ _ 7 hc1len]
      exact hc1take
    have hJlen : 7 ≤ (joinWith " OR " (lpConditions (lp :: rest))).data.length := by
      have := congrArg List.length hJ
      rw [List.length_take] at this
      have h7 : (("cpd.`re" : String)).data.length = 7 := by decide
      omega
    apply not_pre_of_take_ne 8 (by decide)
    have hfil : ((lpFilter (lp :: rest)).data).take 8 = ("(cpd.`re" : String).data := by
      rw [lpFilter, String.data_append, String.data_append]
      have hstep : ((("(" : String).data ++
          (joinWith " OR " (lpConditions (lp :: rest))).data) ++
          ((")" : String)).data).take 8
          = (("(" : String).data ++
            (joinWith " OR " (lpConditions (lp :: rest))).data).take 8 := by
        apply List.take_append_of_le_length
        rw [List.length_append]
        have : (("(" : String)).data.length = 1 := by decide
        omega
      rw [hstep]
      have hsplit : ((("(" : String)).data ++
          (joinWith " OR " (lpConditions (lp :: rest))).data).take 8
          = (("(" : String)).data ++
            ((joinWith " OR " (lpConditions (lp :: rest))).data).take 7 := by
        rw [List.take_append_eq_append_take]
        have hlen1 : (("(" : String)).data.length = 1 := by decide
        rw [hlen1]
        norm_num
      rw [hsplit, hJ]
      decide
    rw [hfil]
    decide

/-- Claim C5: for every campaign configuration, status kind and key list,
the built WHERE clauses contain a clause carrying the duplicate-exclusion
text `(cpd.`id` NOT IN (` if and only if the key list is non-empty; when
non-empty the exact clause listing every key is present (each key's
decimal text occurs in it) and is a substring of the full built query;
an empty key set adds no exclusion clause.  This holds for both the
course-based and the landing-page-based builders.  The two hypotheses say
the configured date/exclude filter strings do not themselves start with
the exclusion text (true of every configured campaign). -/
theorem build_query_exclusion_iff (cfg : CampaignConfig) (status : StatusType)
    (ids : List Int)
    (hdate : ∀ s, cfg.dateFilter = some s → ¬ exclusionMark.data <+: s.data)
    (hexcl : ∀ s, cfg.excludeFilter = some s → ¬ exclusionMark.data <+: s.data) :
    ((∃ c ∈ build_course_where cfg status ids,
        exclusionMark.data <+: c.data) ↔ ids ≠ []) ∧
    ((∃ c ∈ build_lp_where cfg status ids,
        exclusionMark.data <+: c.data) ↔ ids ≠ []) ∧
    (ids ≠ [] →
      notInClause ids ∈ build_course_where cfg status ids ∧
      notInClause ids ∈ build_lp_where cfg status ids ∧
      (∀ k ∈ ids, (toString k).data <:+: (notInClause ids).data) ∧
      (notInClause ids).data <:+: (build_course_query cfg status ids).data ∧
      (notInClause ids).data <:+:
        (build_landing_page_query cfg status ids).data) := by
  have hsplitP : ∀ {l1 l2 : List String},
      (∀ c ∈ l1, ¬ exclusionMark.data <+: c.data) →
      (∀ c ∈ l2, ¬ exclusionMark.data <+: c.data) →
      ∀ c ∈ l1 ++ l2, ¬ exclusionMark.data <+: c.data :=
    fun h1 h2 c hc => (List.mem_append.mp hc).elim (h1 c) (h2 c)
  have hctP : ∀ c ∈ (match cfg.courseTypes with
      | some ts => ["ce.`event_type_id` IN (" ++ joinInts ts ++ ")"]
      | none => []), ¬ exclusionMark.data <+: c.data := by
    cases cfg.courseTypes with
    | none => intro c hc; cases hc
    | some ts =>
      intro c hc
      rw [List.mem_singleton] at hc
      subst hc
      exact mark_not_pre_ct ts
  have hcidP : ∀ c ∈ (match cfg.courseIds with
      | some cids => ["cpd.`entity_id` IN (" ++ joinInts cids ++ ")"]
      | none => []), ¬ exclusionMark.data <+: c.data := by
    cases cfg.courseIds with
    | none => intro c hc; cases hc
    | some cids =>
      intro c hc
      rw [List.mem_singleton] at hc
      subst hc
      exact mark_not_pre_cid cids
  have hdateP : ∀ c ∈ (match cfg.dateFilter with
      | some s => [s]
      | none => []), ¬ exclusionMark.data <+: c.data := by
    cases hd : cfg.dateFilter with
    | none => intro c hc; cases hc
    | some s =>
      intro c hc
      rw [List.mem_singleton] at hc
      subst hc
      exact hdate c hd
  have hexclP : ∀ c ∈ (match cfg.excludeFilter with
      | some s => if s ≠ "" then [s] else []
      | none => []), ¬ exclusionMark.data <+: c.data := by
    cases he : cfg.excludeFilter with
    | none => intro c hc; cases hc
    | some s =>
      intro c hc
      dsimp only at hc
      by_cases hs : s ≠ ""
      · rw [if_pos hs, List.mem_singleton] at hc
        subst hc
        exact hexcl c he
      · rw [if_neg hs] at hc
        cases hc
  have hstatusP : ∀ c ∈ [statusClause status],
      ¬ exclusionMark.data <+: c.data := by
    intro c hc
    rw [List.mem_singleton] at hc
    subst hc
    exact mark_not_pre_status status
  have htimeP : ∀ c ∈ [timeClause], ¬ exclusionMark.data <+: c.data := by
    intro c hc
    rw [List.mem_singleton] at hc
    subst hc
    exact mark_not_pre_time
  have hlpP : ∀ c ∈ (match cfg.landingPages with
      | some lps => [lpFilter lps]
      | none => []), ¬ exclusionMark.data <+: c.data := by
    cases cfg.landingPages with
    | none => intro c hc; cases hc
    | some lps =>
      intro c hc
      rw [List.mem_singleton] at hc
      subst hc
      exact mark_not_pre_lpFilter lps
  have hnoc : ∀ c ∈ build_course_where cfg status [],
      ¬ exclusionMark.data <+: c.data := by
    rw [build_course_where]
    exact hsplitP (hsplitP (hsplitP (hsplitP (hsplitP (hsplitP hctP hcidP)
      (by intro c hc; simp at hc)) hdateP) hstatusP) htimeP) hexclP
  have hnol : ∀ c ∈ build_lp_where cfg status [],
      ¬ exclusionMark.data <+: c.data := by
    rw [build_lp_where]
    exact hsplitP (hsplitP (hsplitP (hsplitP hlpP
      (by intro c hc; simp at hc)) hdateP) hstatusP) htimeP
  have hie : ids ≠ [] → ids.isEmpty = false := by
    intro h
    cases ids with
    | nil => exact absurd rfl h
    | cons a l => rfl
  have hmemc : ids ≠ [] → notInClause ids ∈ build_course_where cfg status ids := by
    intro h
    rw [build_course_where, hie h]
    simp [List.mem_append]
  have hmeml : ids ≠ [] → notInClause ids ∈ build_lp_where cfg status ids := by
    intro h
    rw [build_lp_where, hie h]
    simp [List.mem_append]
  refine ⟨?_, ?_, ?_⟩
  · constructor
    · rintro ⟨c, hc, hp⟩
      intro heq
      subst heq
      exact hnoc c hc hp
    · intro h
      exact ⟨notInClause ids, hmemc h, mark_pre_notInClause ids⟩
  · constructor
    · rintro ⟨c, hc, hp⟩
      intro heq
      subst heq
      exact hnol c hc hp
    · intro h
      exact ⟨notInClause ids, hmeml h, mark_pre_notInClause ids⟩
  · intro h
    refine ⟨hmemc h, hmeml h, ?_, ?_, ?_⟩
    · intro k hk
      have hk' : toString k ∈ ids.map toString := List.mem_map.mpr ⟨k, hk, rfl⟩
      have hinf := mem_joinWith_infix "," (ids.map toString) (toString k) hk'
      rw [notInClause, joinInts] at *
      rw [String.data_append, String.data_append]
      exact infix_append_right_char _ (infix_append_left_char _ hinf)
    · have hinf := mem_joinWith_infix " AND "
        (build_course_where cfg status ids) (notInClause ids) (hmemc h)
      rw [build_course_query, String.data_append, String.data_append]
      exact infix_append_right_char _ (infix_append_left_char _ hinf)
    · have hinf := mem_joinWith_infix " AND "
        (build_lp_where cfg status ids) (notInClause ids) (hmeml h)
      rw [build_landing_page_query, String.data_append, String.data_append]
      exact infix_append_right_char _ (infix_append_left_char _ hinf)

/-- The 'tealbox-ombw-mar2025' campaign's configuration, from
`config_campaign.py` (its `course_types` entry is commented out; it is
the campaign with both an exclude filter and a merge configuration). -/
def tealboxConfig : CampaignConfig where
  courseTypes := none
  courseIds := some [860540, 860541, 860542, 860543, 860544, 860545,
    860546, 860547, 860548, 860549, 860550, 860551, 860552, 860553,
    860555, 860556, 860557, 860558, 860559, 860560, 860561, 860562,
    860563, 860564, 860565, 860566, 860567, 882640, 882641, 882642,
    882643, 882644, 882645, 882646, 882647, 882648, 882649, 882650,
    882651, 882652, 882653, 882654]
  dateFilter := some "cpd.`submitted_on` > '2025-04-03'"
  excludeFilter := some "cpd.`id` not in (select lead_id from civicrm_voucher)"
  landingPages := some ["online-meditation-breath-workshop/fb1",
    "online-meditation-breath-workshop/fb2",
    "online-meditation-breath-workshop/fb3",
    "online-meditation-breath-workshop/fb4", "ombw-fb-1-v2",
    "online-meditation-breath-workshop/fb5"]

/-- Claim C5 witness: instantiated at the tealbox campaign configuration
(whose exclude filter's lowercase `not in (select ...)` is not the
exclusion clause text) with key set `{7}`. -/
theorem build_query_exclusion_iff_witness :
    notInClause [7] ∈ build_course_where tealboxConfig .success [7] ∧
    notInClause [7] ∈ build_lp_where tealboxConfig .success [7] ∧
    (∀ k ∈ ([7] : List Int), (toString k).data <:+: (notInClause [7]).data) ∧
    (notInClause [7]).data <:+:
      (build_course_query tealboxConfig .success [7]).data ∧
    (notInClause [7]).data <:+:
      (build_landing_page_query tealboxConfig .success [7]).data :=
  (build_query_exclusion_iff tealboxConfig .success [7]
    (fun s hs => by cases hs; decide)
    (fun s hs => by cases hs; decide)).2.2 (by decide)

/-! ## Record Transformer (`process_query_results`, lines 593-716) -/

/-- A raw source row after the null-coalescing of lines 629-634 (all
text fields strings, phone already coerced to text); `id` is the integer
`cpd.id`. -/
structure CoRow where
  id : Int
  accounting_course_id : String
  title : String
  name : String
  participant_email : String
  participant_phone : String
  pincode : String
  submitted_on : String
  referal_site : String
  reg_utm_url : String

/-- The parameter set produced by `extract_utm_parameters`. -/
structure UtmParams where
  first_page : String
  greferrer : String
  utm_campaign : String
  utm_id : String
  utm_source : String
  utm_medium : String
  utm_term : String
  utm_content : String
  fbclid : String

/-- The successfully formatted 20-column output row (lines 657-678). -/
def formattedRowOk (r : CoRow) (u : UtmParams) (status_text : String)
    (campaign_lps : List String) : List String :=
  [toString r.id, r.accounting_course_id, r.title, r.name,
   r.participant_email, r.participant_phone, r.submitted_on, status_text,
   r.referal_site, r.reg_utm_url, u.first_page, u.greferrer,
   u.utm_campaign, u.utm_id, u.utm_source, u.utm_medium, u.utm_term,
   u.utm_content, u.fbclid,
   determine_reg_type (some u.first_page) (some u.greferrer) campaign_lps]

/-- The degraded fallback row emitted when the try-block raises (lines
687-708): identifying fields preserved, status and reg_type forced to
"Error", first_page and UTM/click fields blanked, and the last_page
column set to the row's referral-site value. -/
def fallbackRow (r : CoRow) : List String :=
  [toString r.id, r.accounting_course_id, r.title, r.name,
   r.participant_email, r.participant_phone, r.submitted_on, "Error",
   r.referal_site, r.reg_utm_url, "", r.referal_site, "", "", "", "",
   "", "", "", "Error"]

/-- The per-row loop of `process_query_results`: the try-block
(URL/parameter extraction and status derivation, lines 639-647) is
abstracted by the `enrich` oracle, whose `none` models any exception
raised inside the block for that row; classification uses
`determine_reg_type`; on exception the fallback row is emitted and the
loop continues with the next row. -/
def process_query_results (enrich : CoRow → Option (UtmParams × String))
    (campaign_lps : List String) (rows : List CoRow) : List (List String) :=
  rows.map fun r =>
    match enrich r with
    | some (u, status_text) => formattedRowOk r u status_text campaign_lps
    | none => fallbackRow r

/-- Claim C8 counterexample: in the degraded row the enrichment field
`last_page(greferrer)` (column 12, index 11) is NOT blanked — it is set
to the original referral-site value, here "google.com". -/
theorem process_query_results_counterexample :
    ((process_query_results (fun _ => none) []
        [⟨7, "C1", "Course", "N", "e@x", "99", "110011", "2025-01-01",
          "google.com", "http://u"⟩]).head?.getD []).getD 11 "MISSING"
      = "google.com" ∧
    ("google.com" : String) ≠ "" := by
  constructor
  · rfl
  · decide

/-- Claim C8 (amended): the transformer emits exactly one output row per
source row; for every row on which the try-block raises, the output row
is the degraded row, which preserves the identifying fields (ref, course
id, course name, name, email, phone, submitted-on) and the raw
referral/URL fields, sets status and registration type to "Error", and
blanks the enrichment fields except `last_page(greferrer)`, which is set
to the original referral-site value. -/
theorem process_query_results_degraded
    (enrich : CoRow → Option (UtmParams × String))
    (campaign_lps : List String) (rows : List CoRow) :
    (process_query_results enrich campaign_lps rows).length = rows.length ∧
    (∀ (i : Nat) (r : CoRow), rows[i]? = some r → enrich r = none →
      (process_query_results enrich campaign_lps rows)[i]?
        = some (fallbackRow r)) ∧
    (∀ r : CoRow,
      (fallbackRow r).length = 20 ∧
      (fallbackRow r).getD 0 "" = toString r.id ∧
      (fallbackRow r).getD 1 "" = r.accounting_course_id ∧
      (fallbackRow r).getD 2 "" = r.title ∧
      (fallbackRow r).getD 3 "" = r.name ∧
      (fallbackRow r).getD 4 "" = r.participant_email ∧
      (fallbackRow r).getD 5 "" = r.participant_phone ∧
      (fallbackRow r).getD 6 "" = r.submitted_on ∧
      (fallbackRow r).getD 7 "" = "Error" ∧
      (fallbackRow r).getD 8 "" = r.referal_site ∧
      (fallbackRow r).getD 9 "" = r.reg_utm_url ∧
      (fallbackRow r).getD 10 "" = "" ∧
      (fallbackRow r).getD 11 "" = r.referal_site ∧
      (∀ j, 12 ≤ j → j ≤ 18 → (fallbackRow r).getD j "" = "") ∧
      (fallbackRow r).getD 19 "" = "Error") := by
  refine ⟨?_, ?_, ?_⟩
  · rw [process_query_results, List.length_map]
  · intro i r hi he
    rw [process_query_results, List.getElem?_map, hi]
    simp [he]
  · intro r
    refine ⟨rfl, rfl, rfl, rfl, rfl, rfl, rfl, rfl, rfl, rfl, rfl, rfl,
      rfl, ?_, rfl⟩
    intro j h12 h18
    interval_cases j <;> rfl

/-- Claim C8 (amended) witness: a concrete failing row is degraded in
place while the batch survives. -/
theorem process_query_results_degraded_witness :
    (process_query_results (fun _ => none) []
      [⟨7, "C1", "Course", "N", "e@x", "99", "110011", "2025-01-01",
        "google.com", "http://u"⟩])[0]?
      = some (fallbackRow ⟨7, "C1", "Course", "N", "e@x", "99", "110011",
        "2025-01-01", "google.com", "http://u"⟩) :=
  (process_query_results_degraded (fun _ => none) []
    [⟨7, "C1", "Course", "N", "e@x", "99", "110011", "2025-01-01",
      "google.com", "http://u"⟩]).2.1 0
    ⟨7, "C1", "Course", "N", "e@x", "99", "110011", "2025-01-01",
      "google.com", "http://u"⟩ rfl rfl
